import Mathlib

/-!
Verification development for the `fits_schema` library: a shallow embedding of
the schema-validation engine (`fits_schema/binary_table.py`,
`fits_schema/header.py`, `fits_schema/utils.py`) together with theorems about
its validation behaviour.

Conventions of the embedding:
* Python exceptions are modelled by `PyErr`; the validation-error hierarchy of
  `fits_schema/exceptions.py` is modelled by `ExcKind`.
* Stateful logging is modelled by explicit state passing: every validating
  function takes and returns the list of findings emitted so far
  (`List Finding`), next to an `Except PyErr` result that models normal
  return versus an escaping exception.
* numpy arrays and astropy quantities are modelled by `Value`: an explicit
  shape, a flat list of rational elements, an element dtype and an optional
  attached physical unit.  The external array library's precision-preserving
  cast (`astype(..., casting='safe')`, spec section 6 `safeCast`) is modelled
  value-based: a cast succeeds exactly when every element is representable
  unchanged in the target dtype, which is the behaviour the repository's
  tests pin down for the scalar and float cases the claims are about.
* astropy units are modelled by a dimension tag plus a rational scale factor;
  two units are convertible exactly when their dimensions agree, and
  conversion multiplies by the ratio of scales.
-/

namespace FitsSchema

/-- Kinds of validation findings, mirroring `fits_schema/exceptions.py`.
`additionalHeaderCard` is the only warning-class kind (it derives from
`UserWarning` in the source, all others from `ValidationError`). -/
inductive ExcKind where
  | requiredMissing
  | wrongType
  | wrongUnit
  | wrongDims
  | wrongShape
  | wrongValue
  | wrongPosition
  | additionalHeaderCard
  deriving DecidableEq, Repr

/-- Whether the exception kind is a `UserWarning` subclass
(`issubclass(exc_type, UserWarning)` in `utils.log_or_raise`). -/
def ExcKind.isWarning : ExcKind → Bool
  | .additionalHeaderCard => true
  | _ => false

/-- Python exceptions that can escape the validation routines: the
validation errors themselves, plus the runtime errors reachable in the code
(`ValueError` for a bad `onerror`, `AttributeError`/`NameError` from
operating on unbound or `None` data). -/
inductive PyErr where
  | validation (kind : ExcKind) (msg : String)
  | valueError (msg : String)
  | attributeError (msg : String)
  | nameError (msg : String)
  deriving DecidableEq, Repr

/-- Severity of a recorded finding: `log.error` versus `log.warning`
(or `warnings.warn`). -/
inductive Severity where
  | error
  | warning
  deriving DecidableEq, Repr

/-- One recorded finding: the kind, the severity it was recorded at, and the
message. -/
structure Finding where
  kind : ExcKind
  sev : Severity
  msg : String
  deriving DecidableEq, Repr

/-- Model of `utils.log_or_raise(msg, exc_type, log, onerror)`.  Takes the
findings recorded so far and returns the updated findings next to the normal
or exceptional outcome. -/
def log_or_raise (msg : String) (k : ExcKind) (onerror : String)
    (fs : List Finding) : List Finding × Except PyErr Unit :=
  if onerror = "raise" then
    if k.isWarning then (fs ++ [⟨k, .warning, msg⟩], .ok ())
    else (fs, .error (.validation k msg))
  else if onerror = "log" then
    (fs ++ [⟨k, if k.isWarning then .warning else .error, msg⟩], .ok ())
  else (fs, .error (.valueError "onerror must be either raise or log"))

/-- Element dtypes of the built-in column type catalogue
(`binary_table.py` classes `Bool` … `ComplexDouble`). -/
inductive DType where
  | bool
  | uint8
  | int16
  | int32
  | int64
  | char
  | float32
  | float64
  | complex64
  | complex128
  deriving DecidableEq, Repr

/-- FITS TFORM code bound to each column type of the catalogue. -/
def DType.tform_code : DType → String
  | .bool => "L"
  | .uint8 => "B"
  | .int16 => "I"
  | .int32 => "J"
  | .int64 => "K"
  | .char => "A"
  | .float32 => "E"
  | .float64 => "D"
  | .complex64 => "C"
  | .complex128 => "M"

/-- Whether a numeric value is representable unchanged in the dtype: the
model of the external array library's precision-preserving (`safe`) cast,
spec section 6 `safeCast`.  Integer dtypes admit exactly the integers of
their width; the floating and complex dtypes are modelled as exact
(the claims do not probe float rounding); `char` (a byte-string dtype)
admits no numeric value. -/
def DType.fits : DType → ℚ → Bool
  | .bool, q => q = 0 ∨ q = 1
  | .uint8, q => q.den = 1 ∧ 0 ≤ q.num ∧ q.num < 2 ^ 8
  | .int16, q => q.den = 1 ∧ -2 ^ 15 ≤ q.num ∧ q.num < 2 ^ 15
  | .int32, q => q.den = 1 ∧ -2 ^ 31 ≤ q.num ∧ q.num < 2 ^ 31
  | .int64, q => q.den = 1 ∧ -2 ^ 63 ≤ q.num ∧ q.num < 2 ^ 63
  | .char, _ => false
  | .float32, _ => true
  | .float64, _ => true
  | .complex64, _ => true
  | .complex128, _ => true

/-- Truncation toward zero of a rational, modelling a C-style cast of a
float to an integer. -/
def ratTrunc (q : ℚ) : ℤ := q.num / q.den

/-- Unchecked element cast to a dtype, modelling the external array
library's unsafe cast (the `dtype=` argument of `Quantity`): integers wrap
to their width after truncation, booleans collapse to zero or one, the
floating and complex dtypes keep the value. -/
def DType.wrap : DType → ℚ → ℚ
  | .bool, q => if q = 0 then 0 else 1
  | .uint8, q => ((ratTrunc q % 2 ^ 8 : ℤ) : ℚ)
  | .int16, q => (((ratTrunc q + 2 ^ 15) % 2 ^ 16 - 2 ^ 15 : ℤ) : ℚ)
  | .int32, q => (((ratTrunc q + 2 ^ 31) % 2 ^ 32 - 2 ^ 31 : ℤ) : ℚ)
  | .int64, q => (((ratTrunc q + 2 ^ 63) % 2 ^ 64 - 2 ^ 63 : ℤ) : ℚ)
  | .char, q => q
  | .float32, q => q
  | .float64, q => q
  | .complex64, q => q
  | .complex128, q => q

/-- Model of an astropy unit: a dimension tag (two units are dimensionally
convertible exactly when the tags agree) and a positive rational scale
relative to the base unit of that dimension. -/
structure PhysUnit where
  dim : ℕ
  scale : ℚ
  deriving DecidableEq, Repr

/-- Dimensionless unit, the unit attached by `Quantity(data, None)` to bare
arrays. -/
def dimensionless : PhysUnit := ⟨0, 1⟩

/-- Model of a numpy array or astropy quantity reaching `validate_data`:
shape, flat element list, element dtype and optional attached unit.
A bare Python scalar is the shape `[]`. -/
structure Value where
  dtype : DType
  unit : Option PhysUnit
  shape : List ℕ
  elems : List ℚ
  deriving DecidableEq, Repr

/-- Number of axes of the value (`data.ndim`). -/
def Value.ndim (v : Value) : ℕ := v.shape.length

/-- Model of a `Column` descriptor after `Column.__init__` has resolved
`ndim` and `shape` (`binary_table.py` lines 58-84): `ndim` is always a
number here, `shape` stays optional. -/
structure Column where
  dtype : DType
  name : String
  unit : Option PhysUnit := none
  strict_unit : Bool := false
  required : Bool := true
  ndim : ℕ := 0
  shape : Option (List ℕ) := none
  deriving DecidableEq, Repr

/-- Model of the `ndim`/`shape` resolution of `Column.__init__`: a declared
shape fixes `ndim` to its length and a contradicting explicit `ndim` is a
`ValueError`; without a shape, `ndim` defaults to 0. -/
def Column.mk' (dtype : DType) (name : String) (unit : Option PhysUnit)
    (strict_unit required : Bool) (ndim : Option ℕ) (shape : Option (List ℕ)) :
    Except PyErr Column :=
  match shape with
  | some s =>
    match ndim with
    | none => .ok ⟨dtype, name, unit, strict_unit, required, s.length, some s⟩
    | some n =>
      if n = s.length then
        .ok ⟨dtype, name, unit, strict_unit, required, n, some s⟩
      else .error (.valueError "Shape and ndim do not match")
  | none =>
    .ok ⟨dtype, name, unit, strict_unit, required, ndim.getD 0, none⟩

/-- Model of `np.asanyarray(data).astype(self.dtype, casting='safe')`
inside its `try` block (`binary_table.py` line 134).  Returns whether the
cast succeeded, together with the value the local name `data` holds
afterwards: the cast array on success, the unmodified input when the
`TypeError` was caught (in particular still `none` when the input was the
Python `None`, whose object-dtype array admits no safe cast). -/
def astypeSafe (d : DType) (data : Option Value) : Bool × Option Value :=
  match data with
  | none => (false, none)
  | some v =>
    if v.elems.all (DType.fits d) then (true, some { v with dtype := d })
    else (false, some v)

/-- Leading padding of a shape to at least `n` axes, modelling the `ndmin`
argument of `Quantity` (length-one axes are prepended). -/
def padShape (n : ℕ) (s : List ℕ) : List ℕ := List.replicate (n - s.length) 1 ++ s

/-- Model of `u.Quantity(data, self.unit, copy=False, ndmin=self.ndim + 1,
dtype=self.dtype)` (`binary_table.py` lines 157-159).  A unit on the data
that is dimensionally incompatible with the column unit raises
`UnitConversionError`; a compatible but different unit converts the
elements into the column unit; a column without a unit keeps the data unit
(or attaches the dimensionless unit); the `dtype` argument casts the
elements uncheckedly. -/
def mkQuantity (col : Column) (v : Value) : Except String Value :=
  let sh := padShape (col.ndim + 1) v.shape
  match v.unit, col.unit with
  | some du, some tu =>
    if du = tu then
      .ok ⟨col.dtype, some tu, sh, v.elems.map (DType.wrap col.dtype)⟩
    else if du.dim = tu.dim then
      .ok ⟨col.dtype, some tu, sh,
        v.elems.map fun q => DType.wrap col.dtype (q * (du.scale / tu.scale))⟩
    else .error "units are not convertible"
  | some du, none => .ok ⟨col.dtype, some du, sh, v.elems.map (DType.wrap col.dtype)⟩
  | none, some tu => .ok ⟨col.dtype, some tu, sh, v.elems.map (DType.wrap col.dtype)⟩
  | none, none =>
    .ok ⟨col.dtype, some dimensionless, sh, v.elems.map (DType.wrap col.dtype)⟩

/-- Condition of the strict-unit check of `Column.validate_data`
(`binary_table.py` line 141): `self.strict_unit and hasattr(data, 'unit')
and data.unit != self.unit`. -/
def strictViol (col : Column) (v : Value) : Prop :=
  col.strict_unit = true ∧ v.unit.isSome = true ∧ v.unit ≠ col.unit

instance (col : Column) (v : Value) : Decidable (strictViol col v) := by
  unfold strictViol; infer_instance

/-- Condition of the dimensionality check of `Column.validate_data`
(`binary_table.py` line 149): `data.ndim != self.ndim + 1 and not
(data.ndim == 0 and self.ndim == 0)`. -/
def dimsViol (col : Column) (v : Value) : Prop :=
  v.ndim ≠ col.ndim + 1 ∧ ¬(v.ndim = 0 ∧ col.ndim = 0)

instance (col : Column) (v : Value) : Decidable (dimsViol col v) := by
  unfold dimsViol; infer_instance

/-- Message of the dimensionality finding, stating the row-wise
dimensionality found (`data.ndim - 1`, a possibly negative integer) versus
the declared one. -/
def dimsMsg (col : Column) (v : Value) : String :=
  let found : ℤ := (v.ndim : ℤ) - 1
  let expected := col.ndim
  s!"Dimensionality of rows is {found}, should be {expected}"

/-- Message of the per-row shape finding. -/
def shapeMsg (s got : List ℕ) : String :=
  s!"Shape {got} does not match required shape {s}"

/-- Model of the body of `Column.validate_data` from the safe cast on
(`binary_table.py` lines 130-170), with `data` the value the local name
holds there — possibly `none` on the fall-through path where a required
column had no data and `onerror` did not raise.  Checks run in source
order: safe cast (`WrongType`), strict unit (`WrongUnit`), dimensionality
(`WrongDims`), quantity normalization (`WrongUnit` on inconvertible units),
per-row shape (`WrongShape`).  The `none` fall-through reaches
`data.ndim` and dies with an `AttributeError`; a failed quantity
construction in a non-raising mode leaves `q` unbound and dies with a
`NameError` at `q.shape`. -/
def validateBody (col : Column) (data : Option Value) (onerror : String)
    (fs0 : List Finding) : List Finding × Except PyErr (Option Value) :=
  let c := astypeSafe col.dtype data
  let r1 := if c.1 then (fs0, Except.ok ())
    else log_or_raise "dtype not convertible to column dtype" .wrongType onerror fs0
  match r1 with
  | (fs1, .error e) => (fs1, .error e)
  | (fs1, .ok _) =>
    let r2 := match c.2 with
      | some v =>
        if strictViol col v then
          log_or_raise "Unit of data does not match specified unit" .wrongUnit onerror fs1
        else (fs1, Except.ok ())
      | none => (fs1, Except.ok ())
    match r2 with
    | (fs2, .error e) => (fs2, .error e)
    | (fs2, .ok _) =>
      match c.2 with
      | none => (fs2, .error (.attributeError "NoneType object has no attribute ndim"))
      | some v =>
        let r3 :=
          if dimsViol col v then log_or_raise (dimsMsg col v) .wrongDims onerror fs2
          else (fs2, Except.ok ())
        match r3 with
        | (fs3, .error e) => (fs3, .error e)
        | (fs3, .ok _) =>
          match mkQuantity col v with
          | .error m =>
            match log_or_raise m .wrongUnit onerror fs3 with
            | (fs4, .error e) => (fs4, .error e)
            | (fs4, .ok _) =>
              (fs4, .error (.nameError "local variable q referenced before assignment"))
          | .ok q =>
            let r5 := match col.shape with
              | some s =>
                if s ≠ q.shape.drop 1 then
                  log_or_raise (shapeMsg s (q.shape.drop 1)) .wrongShape onerror fs3
                else (fs3, Except.ok ())
              | none => (fs3, Except.ok ())
            match r5 with
            | (fs5, .error e) => (fs5, .error e)
            | (fs5, .ok _) => (fs5, .ok (some q))

/-- Model of `Column.validate_data` (`binary_table.py` lines 119-170).
Absent optional data returns `none` with no finding; absent required data
reports `RequiredMissing` and — in a non-raising mode — falls through into
the body with `data` still `None` (there is no early return in the source). -/
def Column.validate_data (col : Column) (data : Option Value) (onerror : String)
    (fs0 : List Finding) : List Finding × Except PyErr (Option Value) :=
  match data with
  | none =>
    if col.required then
      let n := col.name
      match log_or_raise s!"Column {n} is required but missing" .requiredMissing onerror fs0 with
      | (fs1, .error e) => (fs1, .error e)
      | (fs1, .ok _) => validateBody col none onerror fs1
    else (fs0, .ok none)
  | some v => validateBody col (some v) onerror fs0

@[simp] lemma strictViol_retype (col : Column) (v : Value) (d : DType) :
    strictViol col { v with dtype := d } ↔ strictViol col v := Iff.rfl

@[simp] lemma dimsViol_retype (col : Column) (v : Value) (d : DType) :
    dimsViol col { v with dtype := d } ↔ dimsViol col v := Iff.rfl

@[simp] lemma mkQuantity_retype (col : Column) (v : Value) (d : DType) :
    mkQuantity col { v with dtype := d } = mkQuantity col v := rfl

@[simp] lemma dimsMsg_retype (col : Column) (v : Value) (d : DType) :
    dimsMsg col { v with dtype := d } = dimsMsg col v := rfl

/-- Decidable equality for `Except` results, needed to settle concrete
validation runs by `decide`. -/
instance {e a : Type} [DecidableEq e] [DecidableEq a] : DecidableEq (Except e a) := fun x y =>
  match x, y with
  | .ok u, .ok v =>
    if h : u = v then .isTrue (by rw [h])
    else .isFalse (by intro hh; cases hh; exact h rfl)
  | .error u, .error v =>
    if h : u = v then .isTrue (by rw [h])
    else .isFalse (by intro hh; cases hh; exact h rfl)
  | .ok _, .error _ => .isFalse (by intro hh; cases hh)
  | .error _, .ok _ => .isFalse (by intro hh; cases hh)

/-- The validation call raised the given kind of validation error. -/
def raisesKind (r : List Finding × Except PyErr (Option Value)) (k : ExcKind) : Prop :=
  ∃ m, r.2 = .error (.validation k m)

/-! ### Concrete schemas and values used by the boundary-case theorems -/

/-- A 16-bit integer column, as declared by `Int16(required=False)` in
`test_data_types`. -/
def int16Col : Column := { dtype := .int16, name := "test", required := false }

/-- The bare Python float `3.14` as seen by `np.asanyarray`. -/
def val314 : Value := ⟨.float64, none, [], [157 / 50]⟩

/-- The bare Python integer `5`. -/
def valFive : Value := ⟨.int64, none, [], [5]⟩

/-- The bare Python integer `2 ** 15`, one past the 16-bit signed range. -/
def valPow15 : Value := ⟨.int64, none, [], [2 ^ 15]⟩

/-- A required 16-bit integer column (`Int16()` with the defaults), as in
`test_required`. -/
def reqCol : Column := { dtype := .int16, name := "test" }

/-! ### Ordered mappings: the Python `dict` semantics used by the
metaclasses and the instance data stores -/

/-- Model of a single Python `dict` assignment `m[k] = v` on an
insertion-ordered mapping: an existing key keeps its position and gets the
new value, a new key is appended. -/
def dictInsert {α : Type} (m : List (String × α)) (k : String) (v : α) :
    List (String × α) :=
  if (m.map Prod.fst).contains k then
    m.map fun p => if p.1 = k then (k, v) else p
  else m ++ [(k, v)]

/-- Model of Python `dict.update`: assign every entry of `adds` in order. -/
def dictUpdate {α : Type} (m adds : List (String × α)) : List (String × α) :=
  adds.foldl (fun acc p => dictInsert acc p.1 p.2) m

/-- Model of a Python attribute assignment on a `BinaryTable` instance:
the metaclass declares `__slots__ = ('__data__', 'header')` and each
declared column is a descriptor whose `__set__` stores into
`instance.__data__[self.name]`, so assignment to any undeclared name hits
the slots machinery and raises `AttributeError` immediately
(`binary_table.py` lines 93-94 and 175-177). -/
def pySetattr (cols : List String) (d : List (String × Value)) (n : String)
    (v : Value) : Except PyErr (List (String × Value)) :=
  if cols.contains n then .ok (dictInsert d n v)
  else .error (.attributeError s!"object has no attribute {n}")

/-- Model of `BinaryTable.__init__(**column_data)` (`binary_table.py`
lines 217-222): start from an empty data store and `setattr` each keyword
argument in order. -/
def BinaryTable.init (cols : List String) (kwargs : List (String × Value)) :
    Except PyErr (List (String × Value)) :=
  kwargs.foldlM (fun d p => pySetattr cols d p.1 p.2) []

def mergeSchemas {α : Type} (base decls : List (String × α)) : List (String × α) :=
  dictUpdate (dictUpdate [] base) decls

def mergeSpec {α : Type} (base decls : List (String × α)) : List (String × α) :=
  (base.map fun p =>
    match decls.lookup p.1 with
    | some v => (p.1, v)
    | none => p)
  ++ decls.filter fun p => !(base.map Prod.fst).contains p.1

/-- The unit metre: dimension 1 (length) at scale one. -/
def unit_m : PhysUnit := ⟨1, 1⟩

/-- The unit centimetre: dimension 1 (length) at scale 1/100. -/
def unit_cm : PhysUnit := ⟨1, (⟨1, 100, by decide, by decide⟩ : ℚ)⟩

/-- The unit degree, dimensionally incompatible with metre. -/
def unit_deg : PhysUnit := ⟨2, 1⟩

/-- A `Double(unit=u.m)` column as in `test_unit`. -/
def doubleMCol : Column := { dtype := .float64, name := "test", unit := some unit_m }

/-- A `Double(unit=u.m, strict_unit=True)` column as in `test_unit`. -/
def doubleMStrictCol : Column :=
  { dtype := .float64, name := "test", unit := some unit_m, strict_unit := true }

/-- The quantity `[100, 200, 300] * u.cm`. -/
def vCm : Value := ⟨.int64, some unit_cm, [3], [100, 200, 300]⟩

/-- The quantity `[1, 2, 3] * u.deg`. -/
def vDeg : Value := ⟨.int64, some unit_deg, [3], [1, 2, 3]⟩

/-- Dimensional compatibility of the value's unit with the column's,
the condition under which the quantity construction succeeds. -/
def unitsOk (col : Column) (v : Value) : Prop :=
  ∀ du cu, v.unit = some du → col.unit = some cu → du.dim = cu.dim

/-- A `Double(shape=(10,))` column as in `test_shape`. -/
def shape10Col : Column :=
  { dtype := .float64, name := "test", ndim := 1, shape := some [10] }

/-- The per-row vector `[[1, 2, 3]]` (one row of three). -/
def vRow3 : Value := ⟨.int64, none, [1, 3], [1, 2, 3]⟩

/-- A required `Double` column with `strict_unit=True` but no declared
unit, together with the plain vector `[1, 2, 3]` and its normalized
(dimensionless-quantity) result. -/
def strictBareCol : Column := { dtype := .float64, name := "test", strict_unit := true }

/-- The plain (unit-less) vector `[1, 2, 3]`. -/
def vec3 : Value := ⟨.int64, none, [3], [1, 2, 3]⟩

/-- The validated form of `vec3` in `strictBareCol`: a dimensionless
float64 quantity. -/
def qvec3 : Value := ⟨.float64, some dimensionless, [3], [1, 2, 3]⟩

/-! ### Header model: cards, card schemas and header validation -/

/-- The Python types admissible for header values
(`HEADER_ALLOWED_TYPES`, restricted to those the claims exercise). -/
inductive PyType where
  | str
  | bool
  | int
  | float
  deriving DecidableEq, Repr

/-- A header card value: a Python value, the astropy `Undefined`
placeholder of a value-less card, or Python `None`. -/
inductive CardValue where
  | str (s : String)
  | bool (b : Bool)
  | int (n : ℤ)
  | float (q : ℚ)
  | undefined
  | pynone
  deriving DecidableEq, Repr

/-- Python `isinstance` on card values; a `bool` is an `int` in Python. -/
def CardValue.isinst : CardValue → PyType → Bool
  | .str _, .str => true
  | .bool _, .bool => true
  | .bool _, .int => true
  | .int _, .int => true
  | .float _, .float => true
  | _, _ => false

/-- Case folding of a string card value (`card.value.upper()`). -/
def CardValue.upper : CardValue → CardValue
  | .str s => .str s.toUpper
  | v => v

/-- `has_value = not (card.value is None or isinstance(card.value,
fits.Undefined))` (`header.py` line 141). -/
def CardValue.has_value : CardValue → Bool
  | .undefined => false
  | .pynone => false
  | _ => true

/-- One actual header card: the keyword and the parsed value. -/
structure Card where
  keyword : String
  value : CardValue
  deriving DecidableEq, Repr

/-- Model of a `HeaderCard` schema entry after construction
(`header.py` lines 51-92): the keyword lives as the key of the schema
mapping; `type_` is the resolved tuple of admissible types;
`allowed_values` is the normalized (case-folded) set. -/
structure HeaderCard where
  required : Bool := true
  position : Option ℕ := none
  type_ : Option (List PyType) := none
  allowed_values : Option (List CardValue) := none
  empty : Option Bool := none
  case_insensitive : Bool := true
  deriving DecidableEq, Repr

/-- Message of the position finding. -/
def posMsg (k : String) (p pos : ℕ) : String :=
  s!"Expected card {k} at position {p} but found at {pos}"

/-- Sequencing of one validation step with Python exception semantics: an
escaped exception aborts the rest, a normal return continues with the
updated findings (the step result value, like the source, is dropped). -/
def pyTry {α β : Type} (r : List Finding × Except PyErr α)
    (f : List Finding → List Finding × Except PyErr β) :
    List Finding × Except PyErr β :=
  match r with
  | (fs1, .error e) => (fs1, .error e)
  | (fs1, .ok _) => f fs1

/-- The `valid` flag computed by `HeaderCard.validate`: set to false by
the position and type checks only. -/
def validFlag (hc : HeaderCard) (card : Card) (pos : ℕ) : Bool :=
  (match hc.position with
    | some p => !decide (p ≠ pos)
    | none => true)
  && (match hc.type_ with
    | some ts => ts.any (card.value.isinst ·)
    | none => true)

/-- Model of `HeaderCard.validate(card, pos, onerror)` (`header.py` lines
106-151): position, type, allowed values and emptiness are checked in
order, each reporting through `log_or_raise`; the returned flag is the
`valid` local (set to false only by the position and type checks). -/
def HeaderCard.validate (hc : HeaderCard) (k : String) (card : Card) (pos : ℕ)
    (onerror : String) (fs0 : List Finding) : List Finding × Except PyErr Bool :=
  pyTry (match hc.position with
    | some p =>
      if p ≠ pos then log_or_raise (posMsg k p pos) .wrongPosition onerror fs0
      else (fs0, Except.ok ())
    | none => (fs0, Except.ok ())) fun fs1 =>
  pyTry (match hc.type_ with
    | some ts =>
      if ¬ ts.any (card.value.isinst ·) = true then
        log_or_raise (s!"Header keyword {k} has wrong type") .wrongType onerror fs1
      else (fs1, Except.ok ())
    | none => (fs1, Except.ok ())) fun fs2 =>
  pyTry (match hc.allowed_values with
    | some vals =>
      if ¬ vals.contains (if hc.case_insensitive then card.value.upper
          else card.value) = true then
        log_or_raise (s!"Wrong value for {k}") .wrongValue onerror fs2
      else (fs2, Except.ok ())
    | none => (fs2, Except.ok ())) fun fs3 =>
  pyTry (if hc.empty = some true ∧ card.value.has_value = true then
      log_or_raise (s!"Card {k} is required to be empty") .wrongValue onerror fs3
    else (fs3, Except.ok ())) fun fs4 =>
  pyTry (if hc.empty = some false ∧ ¬ card.value.has_value = true then
      log_or_raise (s!"Card {k} exists but has no value") .wrongValue onerror fs4
    else (fs4, Except.ok ())) fun fs5 =>
  (fs5, .ok (validFlag hc card pos))

/-- The findings `HeaderCard.validate` records in `log` mode, as a pure
function: one optional finding per check, in check order. -/
def cardFindings (hc : HeaderCard) (k : String) (card : Card) (pos : ℕ) :
    List Finding :=
  (match hc.position with
    | some p => if p ≠ pos then [⟨.wrongPosition, .error, posMsg k p pos⟩] else []
    | none => [])
  ++ (match hc.type_ with
    | some ts =>
      if ¬ ts.any (card.value.isinst ·) = true then
        [⟨.wrongType, .error, s!"Header keyword {k} has wrong type"⟩]
      else []
    | none => [])
  ++ (match hc.allowed_values with
    | some vals =>
      if ¬ vals.contains (if hc.case_insensitive then card.value.upper
          else card.value) = true then
        [⟨.wrongValue, .error, s!"Wrong value for {k}"⟩]
      else []
    | none => [])
  ++ (if hc.empty = some true ∧ card.value.has_value = true then
      [⟨.wrongValue, .error, s!"Card {k} is required to be empty"⟩]
    else [])
  ++ (if hc.empty = some false ∧ ¬ card.value.has_value = true then
      [⟨.wrongValue, .error, s!"Card {k} exists but has no value"⟩]
    else [])

/-- The reserved multi-instance table-keyword prefixes that are never
reported as unexpected (`header.py` `TABLE_KEYWORDS`/`IGNORE`). -/
def IGNORE : List String :=
  ["TTYPE", "TUNIT", "TFORM", "TSCAL", "TZERO", "TDISP", "TDIM"]

/-- `keyword.rstrip('0123456789')`. -/
def stripTrailingDigits (s : String) : String :=
  ⟨(s.data.reverse.dropWhile Char.isDigit).reverse⟩

/-- Model of the card loop of `HeaderSchema.validate_header`
(`header.py` lines 245-257): walk the actual cards in file order with an
absolute position counter; keywords not in the schema report
`UnexpectedCard` unless their digit-stripped prefix is reserved, and the
loop continues with the next card either way; known keywords are checked
by `HeaderCard.validate` at their absolute position. -/
def validateCards (schema : List (String × HeaderCard)) (cs : List Card)
    (pos : ℕ) (onerror : String) (fs0 : List Finding) :
    List Finding × Except PyErr Unit :=
  match cs with
  | [] => (fs0, .ok ())
  | c :: rest =>
    match schema.lookup c.keyword with
    | Option.none =>
      let kw := c.keyword
      pyTry (if IGNORE.contains (stripTrailingDigits c.keyword) then
          (fs0, Except.ok ())
        else
          log_or_raise s!"Unexpected header card {kw}"
            .additionalHeaderCard onerror fs0) fun fs1 =>
        validateCards schema rest (pos + 1) onerror fs1
    | Option.some hc =>
      pyTry (hc.validate c.keyword c pos onerror fs0) fun fs1 =>
        validateCards schema rest (pos + 1) onerror fs1

/-- The required keywords of the schema missing from the header
(`header.py` lines 234-235). -/
def missingKeywords (schema : List (String × HeaderCard)) (header : List Card) :
    List String :=
  ((schema.filter fun p => p.2.required).map Prod.fst).filter
    fun k => ¬ (header.map Card.keyword).contains k = true

/-- Model of `HeaderSchema.validate_header` (`header.py` lines 231-257):
first one `RequiredMissing` finding listing all required keywords absent
from the header, then the card loop from position 0. -/
def HeaderSchema.validate_header (schema : List (String × HeaderCard))
    (header : List Card) (onerror : String) (fs0 : List Finding) :
    List Finding × Except PyErr Unit :=
  pyTry (if missingKeywords schema header ≠ [] then
      let missing := missingKeywords schema header
      log_or_raise s!"Header is missing the following required keywords: {missing}"
        .requiredMissing onerror fs0
    else (fs0, Except.ok ())) fun fs1 =>
    validateCards schema header 0 onerror fs1

/-- The advisory finding for an undeclared, non-reserved header card. -/
def unexpectedFinding (c : Card) : Finding :=
  let kw := c.keyword
  ⟨.additionalHeaderCard, .warning, s!"Unexpected header card {kw}"⟩

/-- The findings the card loop records for one card at its absolute
position, in `log` mode. -/
def perCardFindings (schema : List (String × HeaderCard)) (pos : ℕ)
    (c : Card) : List Finding :=
  match schema.lookup c.keyword with
  | Option.none =>
    if IGNORE.contains (stripTrailingDigits c.keyword) then []
    else [unexpectedFinding c]
  | Option.some hc => cardFindings hc c.keyword c pos

/-- The one `RequiredMissing` finding of a header validation, when some
required keyword is absent. -/
def missingFindings (schema : List (String × HeaderCard)) (header : List Card) :
    List Finding :=
  if missingKeywords schema header ≠ [] then
    let missing := missingKeywords schema header
    [⟨.requiredMissing, .error,
      s!"Header is missing the following required keywords: {missing}"⟩]
  else []

/-- A one-entry schema declaring only the keyword `TEST`. -/
def schemaTest : List (String × HeaderCard) := [("TEST", {})]

/-- An undeclared, non-reserved card and a reserved table-metadata card. -/
def cardFoo : Card := ⟨"FOO", .int 1⟩

/-- The reserved card `TTYPE1` (digit-stripped prefix `TTYPE`). -/
def cardTtype : Card := ⟨"TTYPE1", .str "A"⟩

/-! ### Lemmas and claim theorems -/

/-! ### Helper lemmas about the validation pipeline -/

lemma log_or_raise_raise_hard {k : ExcKind} (msg : String) (fs : List Finding)
    (h : k.isWarning = false) :
    log_or_raise msg k "raise" fs = (fs, .error (.validation k msg)) := by
  simp [log_or_raise, h]

lemma log_or_raise_raise_warn {k : ExcKind} (msg : String) (fs : List Finding)
    (h : k.isWarning = true) :
    log_or_raise msg k "raise" fs = (fs ++ [⟨k, .warning, msg⟩], .ok ()) := by
  simp [log_or_raise, h]

lemma log_or_raise_log {k : ExcKind} (msg : String) (fs : List Finding) :
    log_or_raise msg k "log" fs =
      (fs ++ [⟨k, if k.isWarning then .warning else .error, msg⟩], .ok ()) := by
  rw [log_or_raise, if_neg (by decide), if_pos rfl]

/-- C1: for every column schema, `validate_data` performs a
precision-preserving cast of the value's elements to the schema's element
type and — in the raising mode — escalates exactly the failures of that
cast as `WrongType`; in particular `3.14` into an `Int16` column is
`WrongType`, `5` into an `Int16` column validates, and `2 ^ 15` into an
`Int16` column is `WrongType`. -/
theorem claim1_safe_cast :
    (∀ (col : Column) (v : Value),
      raisesKind (Column.validate_data col (some v) "raise" []) .wrongType ↔
        ¬ v.elems.all (DType.fits col.dtype) = true)
    ∧ Column.validate_data int16Col (some val314) "raise" [] =
        ([], .error (.validation .wrongType "dtype not convertible to column dtype"))
    ∧ Column.validate_data int16Col (some valFive) "raise" [] =
        ([], .ok (some ⟨.int16, some dimensionless, [1], [5]⟩))
    ∧ Column.validate_data int16Col (some valPow15) "raise" [] =
        ([], .error (.validation .wrongType "dtype not convertible to column dtype")) := by
  refine ⟨?_, by with_unfolding_all rfl, by with_unfolding_all rfl, by with_unfolding_all rfl⟩
  intro col v
  rw [Column.validate_data]
  constructor
  · intro h
    by_contra hall
    rw [validateBody] at h
    simp only [astypeSafe, hall, if_true] at h
    by_cases hs : strictViol col v
    · simp [raisesKind, log_or_raise, ExcKind.isWarning, hs] at h
    · by_cases hd : dimsViol col v
      · simp [raisesKind, log_or_raise, ExcKind.isWarning, hs, hd] at h
      · cases hq : mkQuantity col v with
        | error m =>
          simp [raisesKind, log_or_raise, ExcKind.isWarning, hs, hd, hq] at h
        | ok q =>
          cases hsh : col.shape with
          | none => simp [raisesKind, hs, hd, hq, hsh] at h
          | some s =>
            by_cases hne : s = q.shape.tail
            · simp [raisesKind, hs, hd, hq, hsh, hne] at h
            · simp [raisesKind, log_or_raise, ExcKind.isWarning, hs, hd, hq, hsh, hne] at h
  · intro hall
    refine ⟨"dtype not convertible to column dtype", ?_⟩
    rw [validateBody]
    simp only [astypeSafe, hall, if_false, Bool.false_eq_true]
    simp [log_or_raise, ExcKind.isWarning]

/-- C9: `log_or_raise` signals the error kind immediately in mode `raise`
(warning-class kinds are warned instead of raised), records the message at
a severity determined by the kind and returns normally in mode `log`, and
raises an invalid-configuration `ValueError` for any other mode, whatever
the kind. -/
theorem claim9_log_or_raise :
    ∀ (msg : String) (k : ExcKind) (fs : List Finding),
      (k.isWarning = false →
        log_or_raise msg k "raise" fs = (fs, .error (.validation k msg)))
      ∧ (k.isWarning = true →
        log_or_raise msg k "raise" fs = (fs ++ [⟨k, .warning, msg⟩], .ok ()))
      ∧ log_or_raise msg k "log" fs =
          (fs ++ [⟨k, if k.isWarning then .warning else .error, msg⟩], .ok ())
      ∧ (∀ mode, mode ≠ "raise" → mode ≠ "log" →
          log_or_raise msg k mode fs =
            (fs, .error (.valueError "onerror must be either raise or log"))) := by
  intro msg k fs
  refine ⟨fun h => log_or_raise_raise_hard msg fs h,
    fun h => log_or_raise_raise_warn msg fs h,
    log_or_raise_log msg fs, fun mode h1 h2 => ?_⟩
  rw [log_or_raise, if_neg h1, if_neg h2]

/-- Witness for C9 at the concrete kinds `WrongType` (a hard error),
`AdditionalHeaderCard` (a warning) and the invalid mode string `collect`. -/
theorem claim9_log_or_raise_witness :
    log_or_raise "m" .wrongType "raise" [] =
      ([], .error (.validation .wrongType "m"))
    ∧ log_or_raise "m" .additionalHeaderCard "raise" [] =
        ([⟨.additionalHeaderCard, .warning, "m"⟩], .ok ())
    ∧ log_or_raise "m" .wrongType "collect" [] =
        ([], .error (.valueError "onerror must be either raise or log")) :=
  ⟨(claim9_log_or_raise "m" .wrongType []).1 rfl,
    (claim9_log_or_raise "m" .additionalHeaderCard []).2.1 rfl,
    (claim9_log_or_raise "m" .wrongType []).2.2.2 "collect" (by decide) (by decide)⟩

/-- C5 (behaviour at the failing input): with absent data, an optional
column validates to `none` with no finding in *every* mode, and a required
column in mode `raise` raises `RequiredMissing`; but in mode `log` the
code does *not* stop after recording `RequiredMissing`: it falls through,
records a spurious `WrongType` finding for the unconvertible `None`, and
crashes with an `AttributeError` at `data.ndim` — contradicting the claim
that no further checks run for that column in every mode. -/
theorem claim5_required_missing :
    (∀ onerror, Column.validate_data { reqCol with required := false } none onerror [] =
      ([], .ok none))
    ∧ Column.validate_data reqCol none "raise" [] =
        ([], .error (.validation .requiredMissing "Column test is required but missing"))
    ∧ Column.validate_data reqCol none "log" [] =
        ([⟨.requiredMissing, .error, "Column test is required but missing"⟩,
          ⟨.wrongType, .error, "dtype not convertible to column dtype"⟩],
         .error (.attributeError "NoneType object has no attribute ndim")) :=
  ⟨fun _ => rfl, by with_unfolding_all rfl, by with_unfolding_all rfl⟩

lemma lookup_replace {α : Type} (m : List (String × α)) (n : String) (v : α)
    (h : (m.map Prod.fst).contains n = true) :
    (m.map fun p => if p.1 = n then (n, v) else p).lookup n = some v := by
  induction m with
  | nil => simp at h
  | cons p ps ih =>
    obtain ⟨pk, pv⟩ := p
    by_cases hp : pk = n
    · simp only [List.map_cons, if_pos hp, List.lookup_cons, beq_self_eq_true]
    · have hb : (n == pk) = false := beq_eq_false_iff_ne.mpr fun hh => hp hh.symm
      have hps : (ps.map Prod.fst).contains n = true := by
        simp only [List.map_cons, List.contains_cons, Bool.or_eq_true] at h
        rcases h with h1 | h1
        · exact absurd (eq_of_beq h1).symm hp
        · exact h1
      simp only [List.map_cons, if_neg hp, List.lookup_cons, hb]
      exact ih hps

lemma lookup_append_single {α : Type} (m : List (String × α)) (n : String) (v : α)
    (h : (m.map Prod.fst).contains n = false) :
    (m ++ [(n, v)]).lookup n = some v := by
  induction m with
  | nil => simp [List.lookup_cons]
  | cons p ps ih =>
    obtain ⟨pk, pv⟩ := p
    simp only [List.map_cons, List.contains_cons, Bool.or_eq_false_iff] at h
    simp only [List.cons_append, List.lookup_cons, h.1]
    exact ih h.2

lemma lookup_dictInsert {α : Type} (m : List (String × α)) (n : String) (v : α) :
    (dictInsert m n v).lookup n = some v := by
  rw [dictInsert]
  by_cases hc : (m.map Prod.fst).contains n = true
  · rw [if_pos hc]; exact lookup_replace m n v hc
  · rw [if_neg hc]
    exact lookup_append_single m n v (Bool.not_eq_true _ ▸ hc)

/-- C10: assigning to a name that is not a declared column is rejected
immediately with an `AttributeError` — a programming error, never a
validation finding — both for direct assignment and through constructor
keyword arguments; assigning to a declared column name stores the value. -/
theorem claim10_undeclared_assignment :
    (∀ (cols : List String) (d : List (String × Value)) (n : String) (v : Value),
      cols.contains n = false →
        pySetattr cols d n v = .error (.attributeError s!"object has no attribute {n}"))
    ∧ (∀ (cols : List String) (d : List (String × Value)) (n : String) (v : Value)
        (k : ExcKind) (m : String), pySetattr cols d n v ≠ .error (.validation k m))
    ∧ (∀ (cols : List String) (kwargs : List (String × Value)) (n : String) (v : Value),
        cols.contains n = false →
          BinaryTable.init cols ((n, v) :: kwargs) =
            .error (.attributeError s!"object has no attribute {n}"))
    ∧ (∀ (cols : List String) (d : List (String × Value)) (n : String) (v : Value),
        cols.contains n = true →
          pySetattr cols d n v = .ok (dictInsert d n v)
          ∧ (dictInsert d n v).lookup n = some v) := by
  refine ⟨fun cols d n v h => by rw [pySetattr, if_neg (by rw [h]; simp)], ?_, ?_, ?_⟩
  · intro cols d n v k m
    rw [pySetattr]
    by_cases hc : cols.contains n = true
    · rw [if_pos hc]; simp
    · rw [if_neg hc]; simp
  · intro cols kwargs n v h
    rw [BinaryTable.init, List.foldlM, pySetattr, if_neg (by rw [h]; simp)]
    rfl
  · intro cols d n v h
    exact ⟨by rw [pySetattr, if_pos h], lookup_dictInsert d n v⟩

/-- Witness for C10: a table declaring only the column `test` rejects
assignment to `foo` immediately (also from the constructor) and stores an
assignment to `test`. -/
theorem claim10_undeclared_assignment_witness :
    pySetattr ["test"] [] "foo" valFive =
      .error (.attributeError "object has no attribute foo")
    ∧ BinaryTable.init ["test"] [("foo", valFive)] =
        .error (.attributeError "object has no attribute foo")
    ∧ pySetattr ["test"] [] "test" valFive = .ok [("test", valFive)]
    ∧ [("test", valFive)].lookup "test" = some valFive := by
  refine ⟨?_, ?_, ?_, ?_⟩
  · exact claim10_undeclared_assignment.1 ["test"] [] "foo" valFive (by decide)
  · exact claim10_undeclared_assignment.2.2.1 ["test"] [] "foo" valFive (by decide)
  · exact (claim10_undeclared_assignment.2.2.2 ["test"] [] "test" valFive (by decide)).1
  · exact (claim10_undeclared_assignment.2.2.2 ["test"] [] "test" valFive (by decide)).2

lemma contains_iff {l : List String} {a : String} : l.contains a = true ↔ a ∈ l :=
  List.elem_iff

lemma contains_append (l1 l2 : List String) (a : String) :
    (l1 ++ l2).contains a = (l1.contains a || l2.contains a) := by
  simp [List.contains_eq_any_beq, List.any_append]

lemma lookup_eq_none_of_forall {α : Type} {l : List (String × α)} {k : String}
    (h : ∀ x ∈ l, x.1 ≠ k) : l.lookup k = none := by
  induction l with
  | nil => rfl
  | cons p ps ih =>
    obtain ⟨pk, pv⟩ := p
    have hb : (k == pk) = false :=
      beq_eq_false_iff_ne.mpr fun hh => (h (pk, pv) (by simp)) (by simp [hh])
    simp only [List.lookup_cons, hb]
    exact ih fun x hx => h x (List.mem_cons_of_mem _ hx)

lemma keys_replace {α : Type} (m : List (String × α)) (k : String) (v : α) :
    ((m.map fun p => if p.1 = k then (k, v) else p).map Prod.fst) = m.map Prod.fst := by
  rw [List.map_map]
  exact List.map_congr_left fun p _ => by
    by_cases hp : p.1 = k <;> simp [hp]

lemma keys_dictInsert_mem {α : Type} (m : List (String × α)) (k : String) (v : α)
    (h : (m.map Prod.fst).contains k = true) :
    (dictInsert m k v).map Prod.fst = m.map Prod.fst := by
  rw [dictInsert, if_pos h]; exact keys_replace m k v

lemma keys_dictInsert_new {α : Type} (m : List (String × α)) (k : String) (v : α)
    (h : ¬(m.map Prod.fst).contains k = true) :
    (dictInsert m k v).map Prod.fst = m.map Prod.fst ++ [k] := by
  rw [dictInsert, if_neg h]; simp

lemma nodup_keys_dictInsert {α : Type} (m : List (String × α)) (k : String) (v : α)
    (h : (m.map Prod.fst).Nodup) : ((dictInsert m k v).map Prod.fst).Nodup := by
  by_cases hc : (m.map Prod.fst).contains k = true
  · rw [keys_dictInsert_mem m k v hc]; exact h
  · rw [keys_dictInsert_new m k v hc]
    refine List.Nodup.append h (List.nodup_singleton k) ?_
    intro a ha hb
    rw [List.mem_singleton] at hb
    exact hc (contains_iff.mpr (hb ▸ ha))

lemma mergeSpec_insert {α : Type} (base : List (String × α)) (d : String × α)
    (ds : List (String × α)) (hd : ∀ x ∈ ds, x.1 ≠ d.1) :
    mergeSpec (dictInsert base d.1 d.2) ds = mergeSpec base (d :: ds) := by
  obtain ⟨dk, dv⟩ := d
  simp only at hd
  by_cases hc : (base.map Prod.fst).contains dk = true
  · rw [dictInsert, if_pos hc, mergeSpec, mergeSpec]
    congr 1
    · rw [List.map_map]
      refine List.map_congr_left fun p _ => ?_
      by_cases hp : p.1 = dk
      · simp only [Function.comp_apply, if_pos hp, List.lookup_cons]
        rw [show (p.1 == dk) = true from beq_iff_eq.mpr hp,
          lookup_eq_none_of_forall hd]
        rw [hp]
      · simp only [Function.comp_apply, if_neg hp, List.lookup_cons]
        rw [show (p.1 == dk) = false from beq_eq_false_iff_ne.mpr hp]
    · rw [keys_replace]
      rw [List.filter_cons_of_neg (by rw [hc]; decide)]
  · have hcf : (base.map Prod.fst).contains dk = false :=
      Bool.eq_false_iff.mpr hc
    rw [dictInsert, if_neg hc, mergeSpec, mergeSpec]
    rw [List.map_append, List.filter_cons_of_pos (by rw [hcf]; rfl)]
    have h1 : (base.map fun p =>
        match ((dk, dv) :: ds).lookup p.1 with
        | some v => (p.1, v)
        | none => p) =
        base.map fun p =>
          match ds.lookup p.1 with
          | some v => (p.1, v)
          | none => p := by
      refine List.map_congr_left fun p hp => ?_
      have hpd : p.1 ≠ dk := fun hh =>
        hc (contains_iff.mpr (hh ▸ List.mem_map_of_mem Prod.fst hp))
      rw [List.lookup_cons,
        show (p.1 == dk) = false from beq_eq_false_iff_ne.mpr hpd]
    have h2 : (ds.filter fun p => !((base ++ [(dk, dv)]).map Prod.fst).contains p.1) =
        ds.filter fun p => !(base.map Prod.fst).contains p.1 := by
      refine List.filter_congr fun x hx => ?_
      rw [List.map_append, contains_append]
      have : ([(dk, dv)].map Prod.fst).contains x.1 = false := by
        simp only [List.map_cons, List.map_nil, List.contains_cons]
        rw [show (x.1 == dk) = false from beq_eq_false_iff_ne.mpr (hd x hx)]
        rfl
      rw [this, Bool.or_false]
    rw [h1, h2]
    have hsingle : ([(dk, dv)].map fun p =>
        match ds.lookup p.1 with
        | some v => (p.1, v)
        | none => p) = [(dk, dv)] := by
      simp only [List.map_cons, List.map_nil]
      rw [lookup_eq_none_of_forall hd]
    rw [hsingle, List.append_assoc, List.singleton_append]

lemma dictUpdate_disjoint {α : Type} :
    ∀ (adds acc : List (String × α)),
    (∀ a ∈ adds, (acc.map Prod.fst).contains a.1 = false) →
    (adds.map Prod.fst).Nodup →
    dictUpdate acc adds = acc ++ adds := by
  intro adds
  induction adds with
  | nil => intro acc _ _; simp [dictUpdate]
  | cons a as ih =>
    intro acc hdis hnd
    rw [List.map_cons, List.nodup_cons] at hnd
    obtain ⟨hnotin, hnd⟩ := hnd
    have hca : (acc.map Prod.fst).contains a.1 = false := hdis a (by simp)
    have hstep : dictUpdate acc (a :: as) = dictUpdate (dictInsert acc a.1 a.2) as := rfl
    rw [hstep, dictInsert, if_neg (by rw [hca]; simp)]
    rw [ih (acc ++ [a]) ?_ hnd]
    · rw [List.append_assoc, List.singleton_append]
    · intro b hb
      rw [List.map_append, contains_append, hdis b (List.mem_cons_of_mem _ hb)]
      simp only [List.map_cons, List.map_nil, List.contains_cons, Bool.false_or]
      rw [show (b.1 == a.1) = false from beq_eq_false_iff_ne.mpr
        (fun hh => hnotin (hh ▸ List.mem_map_of_mem Prod.fst hb))]
      rfl

lemma dictUpdate_nil {α : Type} (adds : List (String × α))
    (hd : (adds.map Prod.fst).Nodup) : dictUpdate [] adds = adds := by
  rw [dictUpdate_disjoint adds [] (fun a _ => rfl) hd, List.nil_append]

theorem dictUpdate_eq_mergeSpec {α : Type} (decls base : List (String × α))
    (hb : (base.map Prod.fst).Nodup) (hd : (decls.map Prod.fst).Nodup) :
    dictUpdate base decls = mergeSpec base decls := by
  induction decls generalizing base with
  | nil =>
    rw [dictUpdate, mergeSpec]
    simp
  | cons d ds ih =>
    rw [List.map_cons, List.nodup_cons] at hd
    obtain ⟨hnotin, hnd⟩ := hd
    have hmem : ∀ x ∈ ds, x.1 ≠ d.1 := fun x hx hh =>
      hnotin (hh ▸ List.mem_map_of_mem Prod.fst hx)
    have hstep : dictUpdate base (d :: ds) = dictUpdate (dictInsert base d.1 d.2) ds := rfl
    rw [hstep, ih (dictInsert base d.1 d.2) (nodup_keys_dictInsert base d.1 d.2 hb) hnd]
    exact mergeSpec_insert base d ds hmem

lemma keys_mergeSpec {α : Type} (base decls : List (String × α)) :
    (mergeSpec base decls).map Prod.fst =
      base.map Prod.fst ++
        (decls.filter fun p => !(base.map Prod.fst).contains p.1).map Prod.fst := by
  rw [mergeSpec, List.map_append, List.map_map]
  congr 1
  exact List.map_congr_left fun p _ => by
    cases hl : decls.lookup p.1 <;> simp [Function.comp, hl]

lemma nodup_keys_mergeSpec {α : Type} (base decls : List (String × α))
    (hb : (base.map Prod.fst).Nodup) (hd : (decls.map Prod.fst).Nodup) :
    ((mergeSpec base decls).map Prod.fst).Nodup := by
  rw [keys_mergeSpec]
  refine List.Nodup.append hb ?_ ?_
  · exact ((List.filter_sublist decls).map Prod.fst).nodup hd
  · intro a ha hmem
    rw [List.mem_map] at hmem
    obtain ⟨x, hx, hxa⟩ := hmem
    rw [List.mem_filter] at hx
    have hcb : (base.map Prod.fst).contains x.1 = true :=
      contains_iff.mpr (by rw [hxa]; exact ha)
    rw [hcb] at hx
    exact absurd hx.2 (by decide)

/-- C6: for a derived schema, the merged ordered mapping built by the
metaclasses (an empty dict updated with the base entries, then each
declared entry assigned in declaration order — `header.py` lines 154-169
and `binary_table.py` lines 173-209) equals the base entries in base
order with re-declared names replaced in place by the derived entry,
followed by the newly declared entries in declaration order, and its
names stay unique.  The concrete conjunct mirrors `test_inheritance`:
base `foo, bar` with derived re-declaring `bar` and adding `baz`. -/
theorem claim6_schema_inheritance :
    (∀ {α : Type} (base decls : List (String × α)),
      (base.map Prod.fst).Nodup → (decls.map Prod.fst).Nodup →
        mergeSchemas base decls = mergeSpec base decls
        ∧ ((mergeSchemas base decls).map Prod.fst).Nodup)
    ∧ mergeSchemas [("foo", true), ("bar", true)] [("bar", false), ("baz", true)] =
        [("foo", true), ("bar", false), ("baz", true)] := by
  constructor
  · intro α base decls hb hd
    have hm : mergeSchemas base decls = dictUpdate base decls := by
      rw [mergeSchemas, dictUpdate_nil base hb]
    rw [hm, dictUpdate_eq_mergeSpec decls base hb hd]
    exact ⟨rfl, nodup_keys_mergeSpec base decls hb hd⟩
  · decide

/-- Witness for C6 at a concrete base and derived declaration list. -/
theorem claim6_schema_inheritance_witness :
    mergeSchemas [("A", 0), ("B", 1)] [("B", 2), ("C", 3)] =
      mergeSpec [("A", 0), ("B", 1)] [("B", 2), ("C", 3)]
    ∧ ((mergeSchemas [("A", 0), ("B", 1)] [("B", 2), ("C", 3)]).map Prod.fst).Nodup :=
  claim6_schema_inheritance.1 [("A", 0), ("B", 1)] [("B", 2), ("C", 3)]
    (by decide) (by decide)

/-! ### The happy path of `validate_data` and the unit claims -/

lemma validate_data_ok (col : Column) (v : Value) (onerror : String)
    (hall : v.elems.all (DType.fits col.dtype) = true)
    (hsv : ¬ strictViol col v)
    (hdv : ¬ dimsViol col v)
    {q : Value} (hq : mkQuantity col v = .ok q)
    (hsh : ∀ s, col.shape = some s → s = q.shape.drop 1) (fs : List Finding) :
    Column.validate_data col (some v) onerror fs = (fs, .ok (some q)) := by
  rw [Column.validate_data, validateBody]
  simp only [astypeSafe, hall, if_true]
  cases hshape : col.shape with
  | none => simp [hsv, hdv, hq, hshape]
  | some s =>
    have hs := hsh s hshape
    simp [hsv, hdv, hq, hshape, hs]

/-- C3: with `strict_unit=false`, a value in a convertible but different
unit validates, and the stored result carries the declared unit with the
elements converted into it; with `strict_unit=true`, any attached unit
that differs from the declared one (even a convertible one) raises
`WrongUnit` right after the type cast; a dimensionally incompatible unit
raises `WrongUnit` whether strict or not. -/
theorem claim3_units :
    (∀ (col : Column) (v : Value) (du cu : PhysUnit),
      col.strict_unit = false → col.unit = some cu → v.unit = some du →
      du ≠ cu → du.dim = cu.dim →
      v.elems.all (DType.fits col.dtype) = true → ¬ dimsViol col v →
      (∀ s, col.shape = some s → s = (padShape (col.ndim + 1) v.shape).drop 1) →
      Column.validate_data col (some v) "raise" [] =
        ([], .ok (some ⟨col.dtype, some cu, padShape (col.ndim + 1) v.shape,
          v.elems.map fun x => DType.wrap col.dtype (x * (du.scale / cu.scale))⟩)))
    ∧ (∀ (col : Column) (v : Value) (du : PhysUnit),
        col.strict_unit = true → v.unit = some du → some du ≠ col.unit →
        v.elems.all (DType.fits col.dtype) = true →
        Column.validate_data col (some v) "raise" [] =
          ([], .error (.validation .wrongUnit "Unit of data does not match specified unit")))
    ∧ (∀ (col : Column) (v : Value) (du cu : PhysUnit),
        col.unit = some cu → v.unit = some du → du.dim ≠ cu.dim →
        v.elems.all (DType.fits col.dtype) = true → ¬ dimsViol col v →
        raisesKind (Column.validate_data col (some v) "raise" []) .wrongUnit) := by
  refine ⟨?_, ?_, ?_⟩
  · intro col v du cu hstrict hcu hdu hne hdim hall hdv hsh
    have hq : mkQuantity col v =
        .ok ⟨col.dtype, some cu, padShape (col.ndim + 1) v.shape,
          v.elems.map fun x => DType.wrap col.dtype (x * (du.scale / cu.scale))⟩ := by
      rw [mkQuantity, hdu, hcu]
      simp only [if_neg hne, if_pos hdim]
    have hsv : ¬ strictViol col v := fun hx => by
      rw [strictViol, hstrict] at hx
      exact Bool.false_ne_true hx.1
    exact validate_data_ok col v "raise" hall hsv hdv hq hsh []
  · intro col v du hstrict hdu hne hall
    have hsv : strictViol col v := ⟨hstrict, by rw [hdu]; rfl, by rw [hdu]; exact hne⟩
    rw [Column.validate_data, validateBody]
    simp only [astypeSafe, hall, if_true]
    simp [hsv, log_or_raise, ExcKind.isWarning]
  · intro col v du cu hcu hdu hdim hall hdv
    by_cases hsv : strictViol col v
    · refine ⟨"Unit of data does not match specified unit", ?_⟩
      rw [Column.validate_data, validateBody]
      simp only [astypeSafe, hall, if_true]
      simp [hsv, log_or_raise, ExcKind.isWarning]
    · have hne : du ≠ cu := fun hh => hdim (hh ▸ rfl)
      have hq : mkQuantity col v = .error "units are not convertible" := by
        rw [mkQuantity, hdu, hcu]
        simp only [if_neg hne, if_neg hdim]
      refine ⟨"units are not convertible", ?_⟩
      rw [Column.validate_data, validateBody]
      simp only [astypeSafe, hall, if_true]
      simp [hsv, hdv, hq, log_or_raise, ExcKind.isWarning]

/-- Witness for C3: centimetre data in a metre column converts into
metres, the strict column rejects it, and degree data is rejected as
inconvertible. -/
theorem claim3_units_witness :
    Column.validate_data doubleMCol (some vCm) "raise" [] =
      ([], .ok (some ⟨.float64, some unit_m, padShape 1 [3],
        [(100 : ℚ), 200, 300].map fun x =>
          DType.wrap .float64 (x * (unit_cm.scale / unit_m.scale))⟩))
    ∧ Column.validate_data doubleMStrictCol (some vCm) "raise" [] =
        ([], .error (.validation .wrongUnit "Unit of data does not match specified unit"))
    ∧ raisesKind (Column.validate_data doubleMCol (some vDeg) "raise" []) .wrongUnit :=
  ⟨claim3_units.1 doubleMCol vCm unit_cm unit_m rfl rfl rfl (by decide) rfl
      (by decide) (by decide) (fun s h => Option.noConfusion h),
    claim3_units.2.1 doubleMStrictCol vCm unit_cm rfl rfl (by decide) (by decide),
    claim3_units.2.2 doubleMCol vDeg unit_deg unit_m rfl rfl (by decide) (by decide)
      (by decide)⟩

lemma mkQuantity_none_none (col : Column) (v : Value) (hv : v.unit = none)
    (hc : col.unit = none) :
    mkQuantity col v = .ok ⟨col.dtype, some dimensionless,
      padShape (col.ndim + 1) v.shape, v.elems.map (DType.wrap col.dtype)⟩ := by
  rw [mkQuantity, hv, hc]

lemma mkQuantity_none_some (col : Column) (v : Value) (cu : PhysUnit)
    (hv : v.unit = none) (hc : col.unit = some cu) :
    mkQuantity col v = .ok ⟨col.dtype, some cu,
      padShape (col.ndim + 1) v.shape, v.elems.map (DType.wrap col.dtype)⟩ := by
  rw [mkQuantity, hv, hc]

lemma mkQuantity_some_none (col : Column) (v : Value) (du : PhysUnit)
    (hv : v.unit = some du) (hc : col.unit = none) :
    mkQuantity col v = .ok ⟨col.dtype, some du,
      padShape (col.ndim + 1) v.shape, v.elems.map (DType.wrap col.dtype)⟩ := by
  rw [mkQuantity, hv, hc]

lemma mkQuantity_same (col : Column) (v : Value) (cu : PhysUnit)
    (hv : v.unit = some cu) (hc : col.unit = some cu) :
    mkQuantity col v = .ok ⟨col.dtype, some cu,
      padShape (col.ndim + 1) v.shape, v.elems.map (DType.wrap col.dtype)⟩ := by
  rw [mkQuantity, hv, hc]
  simp

lemma mkQuantity_conv (col : Column) (v : Value) (du cu : PhysUnit)
    (hv : v.unit = some du) (hc : col.unit = some cu) (hne : du ≠ cu)
    (hdim : du.dim = cu.dim) :
    mkQuantity col v = .ok ⟨col.dtype, some cu, padShape (col.ndim + 1) v.shape,
      v.elems.map fun x => DType.wrap col.dtype (x * (du.scale / cu.scale))⟩ := by
  rw [mkQuantity, hv, hc]
  simp only [if_neg hne, if_pos hdim]

lemma mkQuantity_incompatible (col : Column) (v : Value) (du cu : PhysUnit)
    (hv : v.unit = some du) (hc : col.unit = some cu) (hdim : du.dim ≠ cu.dim) :
    mkQuantity col v = .error "units are not convertible" := by
  rw [mkQuantity, hv, hc]
  simp only [if_neg (fun hh : du = cu => hdim (hh ▸ rfl)), if_neg hdim]

lemma mkQuantity_ok_of_unitsOk (col : Column) (v : Value) (h : unitsOk col v) :
    ∃ q, mkQuantity col v = .ok q ∧ q.shape = padShape (col.ndim + 1) v.shape := by
  cases hv : v.unit with
  | none =>
    cases hc : col.unit with
    | none => exact ⟨_, mkQuantity_none_none col v hv hc, rfl⟩
    | some cu => exact ⟨_, mkQuantity_none_some col v cu hv hc, rfl⟩
  | some du =>
    cases hc : col.unit with
    | none => exact ⟨_, mkQuantity_some_none col v du hv hc, rfl⟩
    | some cu =>
      by_cases he : du = cu
      · subst he; exact ⟨_, mkQuantity_same col v du hv hc, rfl⟩
      · exact ⟨_, mkQuantity_conv col v du cu hv hc he (h du cu hv hc), rfl⟩

/-- C2 counterexample: a bare scalar assigned to a default (row-rank 0)
column is accepted, but the normalization *does* add a leading row axis —
the returned value has rank 1, not the scalar rank 0, refuting
"accepts a bare scalar value without adding a row axis". -/
theorem claim2_counterexample :
    Column.validate_data int16Col (some valFive) "raise" [] =
      ([], .ok (some ⟨.int16, some dimensionless, [1], [5]⟩))
    ∧ ¬ Value.ndim ⟨.int16, some dimensionless, [1], [5]⟩ = Value.ndim valFive :=
  ⟨by with_unfolding_all rfl, by decide⟩

/-- C2 amended: a row-rank-0 column accepts a bare scalar — the rank check
tolerates it — but the returned value gains a leading row axis of length
one; for a value that passed the preceding type and strict-unit checks,
`WrongDims` is raised exactly when the rank differs from `row_rank + 1`
(with the message stating found versus expected row dimensionality, via
`dimsMsg`); and once rank and units pass, a declared `row_shape` raises
`WrongShape` exactly when the per-row shape differs from it. -/
theorem claim2_amended :
    (∀ (col : Column) (v : Value),
      col.ndim = 0 → col.shape = none → v.shape = [] → v.unit = none →
      v.elems.all (DType.fits col.dtype) = true →
      Column.validate_data col (some v) "raise" [] =
        ([], .ok (some ⟨col.dtype, some (col.unit.getD dimensionless), [1],
          v.elems.map (DType.wrap col.dtype)⟩)))
    ∧ (∀ (col : Column) (v : Value),
        v.elems.all (DType.fits col.dtype) = true → ¬ strictViol col v →
        (raisesKind (Column.validate_data col (some v) "raise" []) .wrongDims ↔
          dimsViol col v)
        ∧ (dimsViol col v →
          Column.validate_data col (some v) "raise" [] =
            ([], .error (.validation .wrongDims (dimsMsg col v)))))
    ∧ (∀ (col : Column) (v : Value) (s : List ℕ),
        v.elems.all (DType.fits col.dtype) = true → ¬ strictViol col v →
        ¬ dimsViol col v → col.shape = some s → unitsOk col v →
        (raisesKind (Column.validate_data col (some v) "raise" []) .wrongShape ↔
          s ≠ (padShape (col.ndim + 1) v.shape).drop 1)) := by
  refine ⟨?_, ?_, ?_⟩
  · intro col v h0 hshn hvs hvu hall
    have hsv : ¬ strictViol col v := fun hx => by
      rw [strictViol, hvu] at hx
      simp at hx
    have hdv : ¬ dimsViol col v := fun hx =>
      hx.2 ⟨by simp [Value.ndim, hvs], h0⟩
    have hpad : padShape (col.ndim + 1) v.shape = [1] := by
      rw [h0, hvs]; rfl
    cases hc : col.unit with
    | none =>
      have hq := mkQuantity_none_none col v hvu hc
      rw [hpad] at hq
      have := validate_data_ok col v "raise" hall hsv hdv hq
        (fun s h => by rw [hshn] at h; cases h) []
      rw [this]
      simp [hc]
    | some cu =>
      have hq := mkQuantity_none_some col v cu hvu hc
      rw [hpad] at hq
      have := validate_data_ok col v "raise" hall hsv hdv hq
        (fun s h => by rw [hshn] at h; cases h) []
      rw [this]
      simp [hc]
  · intro col v hall hsv
    have hfwd : dimsViol col v →
        Column.validate_data col (some v) "raise" [] =
          ([], .error (.validation .wrongDims (dimsMsg col v))) := by
      intro hdv
      rw [Column.validate_data, validateBody]
      simp only [astypeSafe, hall, if_true]
      simp [hsv, hdv, log_or_raise, ExcKind.isWarning]
    refine ⟨⟨?_, fun hdv => ⟨dimsMsg col v, by rw [hfwd hdv]⟩⟩, hfwd⟩
    intro h
    by_contra hdv
    rw [Column.validate_data, validateBody] at h
    simp only [astypeSafe, hall, if_true] at h
    cases hq : mkQuantity col v with
    | error m => simp [raisesKind, hsv, hdv, hq, log_or_raise, ExcKind.isWarning] at h
    | ok q =>
      cases hsh : col.shape with
      | none => simp [raisesKind, hsv, hdv, hq, hsh] at h
      | some s =>
        by_cases hne : s = q.shape.tail
        · simp [raisesKind, hsv, hdv, hq, hsh, hne] at h
        · simp [raisesKind, hsv, hdv, hq, hsh, hne, log_or_raise, ExcKind.isWarning] at h
  · intro col v s hall hsv hdv hsh hunits
    obtain ⟨q, hq, hqs⟩ := mkQuantity_ok_of_unitsOk col v hunits
    rw [← hqs]
    constructor
    · rintro ⟨m, hm⟩ hne
      rw [validate_data_ok col v "raise" hall hsv hdv hq
        (fun s' h => by rw [hsh] at h; cases h; exact hne) []] at hm
      exact absurd hm (by simp)
    · intro hne
      have hne2 : ¬ s = q.shape.tail := by rw [← List.drop_one]; exact hne
      refine ⟨shapeMsg s (q.shape.tail), ?_⟩
      rw [Column.validate_data, validateBody]
      simp only [astypeSafe, hall, if_true]
      simp [hsv, hdv, hq, hsh, hne2, log_or_raise, ExcKind.isWarning]

/-- Witness for the amended C2 at concrete inputs: the scalar `5` in a
plain `Int16` column, the scalar in a shaped column (rank boundary), and a
row of three in a `shape=(10,)` column (shape boundary). -/
theorem claim2_amended_witness :
    Column.validate_data int16Col (some valFive) "raise" [] =
      ([], .ok (some ⟨int16Col.dtype, some (int16Col.unit.getD dimensionless), [1],
        valFive.elems.map (DType.wrap int16Col.dtype)⟩))
    ∧ (raisesKind (Column.validate_data shape10Col (some valFive) "raise" []) .wrongDims ↔
        dimsViol shape10Col valFive)
    ∧ (raisesKind (Column.validate_data shape10Col (some vRow3) "raise" []) .wrongShape ↔
        [10] ≠ (padShape (shape10Col.ndim + 1) vRow3.shape).drop 1) :=
  ⟨claim2_amended.1 int16Col valFive rfl rfl rfl rfl (by decide),
    (claim2_amended.2.1 shape10Col valFive (by decide) (by decide)).1,
    claim2_amended.2.2 shape10Col vRow3 [10] (by decide) (by decide) (by decide) rfl
      (fun du cu h => nomatch h)⟩

lemma ratTrunc_of_den_one (q : ℚ) (h : q.den = 1) : ratTrunc q = q.num := by
  rw [ratTrunc, h]
  simp

lemma fits_wrap (d : DType) (hd : d ≠ DType.char) (x : ℚ) :
    DType.fits d (DType.wrap d x) = true := by
  cases d with
  | bool =>
    show DType.fits .bool (if x = 0 then 0 else 1) = true
    split_ifs <;> decide
  | uint8 =>
    simp only [DType.fits, DType.wrap, decide_eq_true_eq]
    refine ⟨Rat.den_intCast _, ?_, ?_⟩ <;> rw [Rat.num_intCast] <;> omega
  | int16 =>
    simp only [DType.fits, DType.wrap, decide_eq_true_eq]
    refine ⟨Rat.den_intCast _, ?_, ?_⟩ <;> rw [Rat.num_intCast] <;> omega
  | int32 =>
    simp only [DType.fits, DType.wrap, decide_eq_true_eq]
    refine ⟨Rat.den_intCast _, ?_, ?_⟩ <;> rw [Rat.num_intCast] <;> omega
  | int64 =>
    simp only [DType.fits, DType.wrap, decide_eq_true_eq]
    refine ⟨Rat.den_intCast _, ?_, ?_⟩ <;> rw [Rat.num_intCast] <;> omega
  | char => exact absurd rfl hd
  | float32 => rfl
  | float64 => rfl
  | complex64 => rfl
  | complex128 => rfl

lemma wrap_of_fits (d : DType) (x : ℚ) (h : DType.fits d x = true) :
    DType.wrap d x = x := by
  cases d with
  | bool =>
    simp only [DType.fits, decide_eq_true_eq] at h
    show (if x = 0 then 0 else 1) = x
    rcases h with h | h
    · rw [if_pos h, h]
    · rw [h]; norm_num
  | uint8 =>
    simp only [DType.fits, decide_eq_true_eq] at h
    show ((ratTrunc x % 2 ^ 8 : ℤ) : ℚ) = x
    rw [ratTrunc_of_den_one x h.1]
    have : x.num % (2 ^ 8 : ℤ) = x.num := by omega
    rw [this]
    exact Rat.den_eq_one_iff x |>.mp h.1
  | int16 =>
    simp only [DType.fits, decide_eq_true_eq] at h
    show (((ratTrunc x + 2 ^ 15) % 2 ^ 16 - 2 ^ 15 : ℤ) : ℚ) = x
    rw [ratTrunc_of_den_one x h.1]
    have : (x.num + 2 ^ 15) % (2 ^ 16 : ℤ) - 2 ^ 15 = x.num := by omega
    rw [this]
    exact Rat.den_eq_one_iff x |>.mp h.1
  | int32 =>
    simp only [DType.fits, decide_eq_true_eq] at h
    show (((ratTrunc x + 2 ^ 31) % 2 ^ 32 - 2 ^ 31 : ℤ) : ℚ) = x
    rw [ratTrunc_of_den_one x h.1]
    have : (x.num + 2 ^ 31) % (2 ^ 32 : ℤ) - 2 ^ 31 = x.num := by omega
    rw [this]
    exact Rat.den_eq_one_iff x |>.mp h.1
  | int64 =>
    simp only [DType.fits, decide_eq_true_eq] at h
    show (((ratTrunc x + 2 ^ 63) % 2 ^ 64 - 2 ^ 63 : ℤ) : ℚ) = x
    rw [ratTrunc_of_den_one x h.1]
    have : (x.num + 2 ^ 63) % (2 ^ 64 : ℤ) - 2 ^ 63 = x.num := by omega
    rw [this]
    exact Rat.den_eq_one_iff x |>.mp h.1
  | char => rfl
  | float32 => rfl
  | float64 => rfl
  | complex64 => rfl
  | complex128 => rfl

lemma map_wrap_of_all_fits (d : DType) (l : List ℚ)
    (h : l.all (DType.fits d) = true) : l.map (DType.wrap d) = l := by
  have hmem := List.all_eq_true.mp h
  calc l.map (DType.wrap d) = l.map id :=
        List.map_congr_left fun x hx => wrap_of_fits d x (hmem x hx)
    _ = l := List.map_id l

lemma all_fits_map_wrap (d : DType) (l : List ℚ) (g : ℚ → ℚ)
    (h : l.all (DType.fits d) = true) :
    (l.map fun x => DType.wrap d (g x)).all (DType.fits d) = true := by
  by_cases hd : d = DType.char
  · subst hd
    cases l with
    | nil => rfl
    | cons a as => exact absurd h (by simp [DType.fits])
  · rw [List.all_eq_true]
    intro x hx
    rw [List.mem_map] at hx
    obtain ⟨y, _, rfl⟩ := hx
    exact fits_wrap d hd (g y)

lemma padShape_of_length (n : ℕ) (s : List ℕ) (h : s.length = n) :
    padShape n s = s := by
  rw [padShape, h, Nat.sub_self]
  rfl

lemma length_padShape (n : ℕ) (s : List ℕ) :
    (padShape n s).length = max n s.length := by
  rw [padShape]
  simp only [List.length_append, List.length_replicate]
  omega

lemma validate_data_ok_inv (col : Column) (v q : Value)
    (h : Column.validate_data col (some v) "raise" [] = ([], .ok (some q))) :
    v.elems.all (DType.fits col.dtype) = true
    ∧ ¬ strictViol col v
    ∧ ¬ dimsViol col v
    ∧ mkQuantity col v = .ok q
    ∧ (∀ s, col.shape = some s → s = q.shape.drop 1) := by
  have hall : v.elems.all (DType.fits col.dtype) = true := by
    by_contra hall
    rw [Column.validate_data, validateBody] at h
    simp [astypeSafe, hall, log_or_raise, ExcKind.isWarning] at h
  have hsv : ¬ strictViol col v := by
    intro hsv
    rw [Column.validate_data, validateBody] at h
    simp only [astypeSafe, hall, if_true] at h
    simp [hsv, log_or_raise, ExcKind.isWarning] at h
  have hdv : ¬ dimsViol col v := by
    intro hdv
    rw [Column.validate_data, validateBody] at h
    simp only [astypeSafe, hall, if_true] at h
    simp [hsv, hdv, log_or_raise, ExcKind.isWarning] at h
  obtain ⟨q0, hq0⟩ : ∃ q0, mkQuantity col v = .ok q0 := by
    cases hq : mkQuantity col v with
    | error m =>
      exfalso
      rw [Column.validate_data, validateBody] at h
      simp only [astypeSafe, hall, if_true] at h
      simp [hsv, hdv, hq, log_or_raise, ExcKind.isWarning] at h
    | ok q0 => exact ⟨q0, rfl⟩
  have hsh : ∀ s, col.shape = some s → s = q0.shape.drop 1 := by
    intro s hs
    by_contra hne
    have hne2 : ¬ s = q0.shape.tail := by rw [← List.drop_one]; exact hne
    rw [Column.validate_data, validateBody] at h
    simp only [astypeSafe, hall, if_true] at h
    simp [hsv, hdv, hq0, hs, hne2, log_or_raise, ExcKind.isWarning] at h
  have hq0q : q0 = q := by
    have := validate_data_ok col v "raise" hall hsv hdv hq0 hsh []
    rw [this] at h
    simpa using h
  exact ⟨hall, hsv, hdv, hq0q ▸ hq0, hq0q ▸ hsh⟩

lemma mkQuantity_ok_inv (col : Column) (v q : Value)
    (h : mkQuantity col v = .ok q) :
    q.dtype = col.dtype
    ∧ q.shape = padShape (col.ndim + 1) v.shape
    ∧ (∃ g : ℚ → ℚ, q.elems = v.elems.map fun x => DType.wrap col.dtype (g x))
    ∧ ((col.unit = none ∧ ∃ w, q.unit = some w)
        ∨ (∃ cu, col.unit = some cu ∧ q.unit = some cu)) := by
  cases hv : v.unit with
  | none =>
    cases hc : col.unit with
    | none =>
      rw [mkQuantity_none_none col v hv hc, Except.ok.injEq] at h
      subst h
      exact ⟨rfl, rfl, ⟨fun x => x, rfl⟩, Or.inl ⟨rfl, dimensionless, rfl⟩⟩
    | some cu =>
      rw [mkQuantity_none_some col v cu hv hc, Except.ok.injEq] at h
      subst h
      exact ⟨rfl, rfl, ⟨fun x => x, rfl⟩, Or.inr ⟨cu, rfl, rfl⟩⟩
  | some du =>
    cases hc : col.unit with
    | none =>
      rw [mkQuantity_some_none col v du hv hc, Except.ok.injEq] at h
      subst h
      exact ⟨rfl, rfl, ⟨fun x => x, rfl⟩, Or.inl ⟨rfl, du, rfl⟩⟩
    | some cu =>
      by_cases he : du = cu
      · subst he
        rw [mkQuantity_same col v du hv hc, Except.ok.injEq] at h
        subst h
        exact ⟨rfl, rfl, ⟨fun x => x, rfl⟩, Or.inr ⟨du, rfl, rfl⟩⟩
      · by_cases hdim : du.dim = cu.dim
        · rw [mkQuantity_conv col v du cu hv hc he hdim, Except.ok.injEq] at h
          subst h
          exact ⟨rfl, rfl, ⟨fun x => x * (du.scale / cu.scale), rfl⟩,
            Or.inr ⟨cu, rfl, rfl⟩⟩
        · rw [mkQuantity_incompatible col v du cu hv hc hdim] at h
          cases h

/-- C4 counterexample: for a `strict_unit=True` column with no declared
unit, plain data validates to a dimensionless quantity, but re-validating
that returned value raises `WrongUnit` (its dimensionless unit differs
from the column's `None`), so validation is not idempotent as claimed. -/
theorem claim4_counterexample :
    Column.validate_data strictBareCol (some vec3) "raise" [] =
      ([], .ok (some qvec3))
    ∧ Column.validate_data strictBareCol (some qvec3) "raise" [] =
        ([], .error (.validation .wrongUnit "Unit of data does not match specified unit")) :=
  ⟨by with_unfolding_all rfl, by with_unfolding_all rfl⟩

/-- C4 amended: data validation is idempotent for every column that does
not combine `strict_unit=true` with an undeclared unit: whenever
`validate_data` succeeds with a normalized value, re-validating that value
produces no finding and returns it unchanged. -/
theorem claim4_amended :
    ∀ (col : Column) (v q : Value),
      (col.strict_unit = true → col.unit ≠ none) →
      Column.validate_data col (some v) "raise" [] = ([], .ok (some q)) →
      Column.validate_data col (some q) "raise" [] = ([], .ok (some q)) := by
  intro col v q hstrict h
  obtain ⟨hall, hsv, hdv, hq, hsh⟩ := validate_data_ok_inv col v q h
  obtain ⟨hqd, hqs, ⟨g, hqe⟩, hqu⟩ := mkQuantity_ok_inv col v q hq
  have hallq : q.elems.all (DType.fits col.dtype) = true := by
    rw [hqe]
    exact all_fits_map_wrap col.dtype v.elems g hall
  have hsvq : ¬ strictViol col q := by
    rintro ⟨hs1, _, hs3⟩
    rcases hqu with ⟨hcn, _⟩ | ⟨cu, hc, hqc⟩
    · exact (hstrict hs1) hcn
    · exact hs3 (hqc.trans hc.symm)
  have hndim : q.shape.length = col.ndim + 1 := by
    rw [hqs, length_padShape]
    by_cases h1 : v.ndim = col.ndim + 1
    · rw [Value.ndim] at h1
      rw [h1]
      omega
    · have h2 : v.ndim = 0 ∧ col.ndim = 0 := by
        by_contra h2
        exact hdv ⟨h1, h2⟩
      have h21 := h2.1
      rw [Value.ndim] at h21
      rw [h21, h2.2]
      omega
  have hdvq : ¬ dimsViol col q := fun hx => hx.1 hndim
  have hmapid : q.elems.map (DType.wrap col.dtype) = q.elems :=
    map_wrap_of_all_fits col.dtype q.elems hallq
  have hpadq : padShape (col.ndim + 1) q.shape = q.shape :=
    padShape_of_length _ _ hndim
  have hq2 : mkQuantity col q = .ok q := by
    rcases hqu with ⟨hcn, w, hw⟩ | ⟨cu, hc, hqc⟩
    · rw [mkQuantity_some_none col q w hw hcn, hpadq, hmapid, ← hqd, ← hw]
    · rw [mkQuantity_same col q cu hqc hc, hpadq, hmapid, ← hqd, ← hqc]
  exact validate_data_ok col q "raise" hallq hsvq hdvq hq2 hsh []

/-- Witness for the amended C4: re-validating the normalized scalar `5`
of a plain `Int16` column returns it unchanged with no finding. -/
theorem claim4_amended_witness :
    Column.validate_data int16Col
        (some ⟨.int16, some dimensionless, [1], [5]⟩) "raise" [] =
      ([], .ok (some ⟨.int16, some dimensionless, [1], [5]⟩)) :=
  claim4_amended int16Col valFive ⟨.int16, some dimensionless, [1], [5]⟩
    (fun hs => absurd hs (by decide)) (by with_unfolding_all rfl)

set_option maxHeartbeats 1000000 in
lemma headerCard_validate_log (hc : HeaderCard) (k : String) (card : Card)
    (pos : ℕ) (fs : List Finding) :
    hc.validate k card pos "log" fs =
      (fs ++ cardFindings hc k card pos, .ok (validFlag hc card pos)) := by
  rw [HeaderCard.validate, cardFindings]
  cases hp : hc.position <;> cases ht : hc.type_ <;> cases ha : hc.allowed_values <;>
    split_ifs <;> simp [pyTry, log_or_raise_log, ExcKind.isWarning] <;>
      split_ifs <;> simp

lemma validateCards_log (schema : List (String × HeaderCard)) (cs : List Card) :
    ∀ (pos : ℕ) (fs : List Finding),
    validateCards schema cs pos "log" fs =
      (fs ++ (List.enumFrom pos cs).flatMap fun ic => perCardFindings schema ic.1 ic.2,
        .ok ()) := by
  induction cs with
  | nil => intro pos fs; simp [validateCards, List.enumFrom]
  | cons c rest ih =>
    intro pos fs
    rw [validateCards]
    cases hl : schema.lookup c.keyword with
    | none =>
      by_cases hig : stripTrailingDigits c.keyword ∈ IGNORE
      · simp [pyTry, hig, ih, perCardFindings, hl, List.enumFrom]
      · simp [pyTry, hig, log_or_raise_log, ih, perCardFindings, hl, List.enumFrom,
          unexpectedFinding, ExcKind.isWarning]
    | some hc =>
      simp only []
      rw [headerCard_validate_log]
      simp [pyTry, ih, perCardFindings, hl, List.enumFrom]

lemma validate_header_log (schema : List (String × HeaderCard))
    (header : List Card) (fs : List Finding) :
    HeaderSchema.validate_header schema header "log" fs =
      (fs ++ missingFindings schema header ++
        ((List.enumFrom 0 header).flatMap fun ic => perCardFindings schema ic.1 ic.2),
        .ok ()) := by
  rw [HeaderSchema.validate_header]
  by_cases hm : missingKeywords schema header = []
  · simp [hm, pyTry, validateCards_log, missingFindings]
  · simp [hm, pyTry, log_or_raise_log, validateCards_log, missingFindings,
      ExcKind.isWarning]

set_option maxHeartbeats 2000000 in
lemma wrongPosition_cardFindings (hc : HeaderCard) (k : String) (card : Card)
    (pos : ℕ) :
    (∃ f ∈ cardFindings hc k card pos, f.kind = .wrongPosition) ↔
      ∃ p, hc.position = some p ∧ p ≠ pos := by
  rw [cardFindings]
  cases hp : hc.position <;> cases ht : hc.type_ <;> cases ha : hc.allowed_values <;>
    split_ifs <;> simp_all <;> aesop

/-- C7: in both error modes, a card whose keyword is not in the schema
and whose digit-stripped prefix is not reserved produces exactly the
`UnexpectedCard` advisory — a warning-severity finding, not a raised
error, even in mode `raise` — and the walk continues with the next card
at the next position; a card with a reserved prefix produces no finding
at all and the walk also continues. -/
theorem claim7_unexpected_card :
    ∀ (schema : List (String × HeaderCard)) (c : Card) (rest : List Card)
      (pos : ℕ) (mode : String) (fs : List Finding),
      mode = "raise" ∨ mode = "log" →
      schema.lookup c.keyword = none →
      (¬ stripTrailingDigits c.keyword ∈ IGNORE →
        (unexpectedFinding c).sev = .warning
        ∧ validateCards schema (c :: rest) pos mode fs =
            validateCards schema rest (pos + 1) mode (fs ++ [unexpectedFinding c]))
      ∧ (stripTrailingDigits c.keyword ∈ IGNORE →
        validateCards schema (c :: rest) pos mode fs =
          validateCards schema rest (pos + 1) mode fs) := by
  intro schema c rest pos mode fs hmode hl
  constructor
  · intro hig
    refine ⟨rfl, ?_⟩
    rw [validateCards]
    rcases hmode with h | h <;> subst h <;>
      simp [hl, hig, pyTry, log_or_raise, ExcKind.isWarning, unexpectedFinding]
  · intro hig
    rw [validateCards]
    simp [hl, hig, pyTry]

/-- Witness for C7: the unknown card `FOO` contributes exactly the
advisory and the loop continues; the reserved card `TTYPE1` contributes
nothing. -/
theorem claim7_unexpected_card_witness :
    validateCards schemaTest [cardFoo] 0 "raise" [] =
      validateCards schemaTest [] 1 "raise" ([] ++ [unexpectedFinding cardFoo])
    ∧ validateCards schemaTest [cardTtype] 5 "log" [] =
        validateCards schemaTest [] 6 "log" [] :=
  ⟨((claim7_unexpected_card schemaTest cardFoo [] 0 "raise" [] (Or.inl rfl)
      (by decide)).1 (by decide)).2,
    (claim7_unexpected_card schemaTest cardTtype [] 5 "log" [] (Or.inr rfl)
      (by decide)).2 (by decide)⟩

/-- C8: a header validation in `log` mode records the missing-keyword
finding followed by per-card findings for the cards enumerated in
absolute file order from zero — every actual card, including reserved and
unexpected ones, advances the position counter — and a card schema with a
declared position contributes a `WrongPosition` finding exactly when its
card's absolute index differs from the declared position. -/
theorem claim8_wrong_position :
    (∀ (schema : List (String × HeaderCard)) (header : List Card)
      (fs : List Finding),
      HeaderSchema.validate_header schema header "log" fs =
        (fs ++ missingFindings schema header ++
          ((List.enumFrom 0 header).flatMap fun ic =>
            perCardFindings schema ic.1 ic.2),
          .ok ()))
    ∧ (∀ (hc : HeaderCard) (k : String) (card : Card) (pos : ℕ),
        (∃ f ∈ cardFindings hc k card pos, f.kind = .wrongPosition) ↔
          ∃ p, hc.position = some p ∧ p ≠ pos) :=
  ⟨validate_header_log, wrongPosition_cardFindings⟩

end FitsSchema
